import Mathlib

/-!
# Verification of the bulk-messaging bot core (src/src/app.ts)

A shallow embedding, in Lean 4, of the pure core of the WhatsApp
bulk-campaign bot: recipient-identifier normalization and extraction,
the per-session conversation state machine, and the sequential bulk
dispatch loop.  Each definition mirrors one function of `src/src/app.ts`;
timing (the randomized sleeps) and logging are not modelled, and the
external transport is modelled as an oracle recording the sequence of
outcomes it produces.
-/

namespace BotSpec

/-! ## Identifier normalization (`normalizePeruNumber`, app.ts:62-72) -/

/-- The digit characters of a string, in order.  Mirrors
`number.replace(/[^\d]/g, "")`: every non-digit character is removed. -/
def digitsOf (s : String) : List Char :=
  s.toList.filter Char.isDigit

/-- `normalizePeruNumber` (app.ts:62-72).  Strips all non-digits; the
`/^\d+$/` test on the stripped string fails exactly when it is empty;
a 9-digit string starting with `9` is prefixed with `"51"`; an 11-digit
string starting with `"51"` whose third character is `9` is returned
unchanged; everything else is rejected (`null`, here `none`). -/
def normalizePeruNumber (s : String) : Option String :=
  let cleaned := digitsOf s
  if cleaned.isEmpty then none
  else if cleaned.head? = some '9' ∧ cleaned.length = 9 then
    some (String.mk ('5' :: '1' :: cleaned))
  else if cleaned.take 2 = ['5', '1'] ∧ cleaned.length = 11 ∧
      cleaned.get? 2 = some '9' then
    some (String.mk cleaned)
  else none

/-! ## Identifier extraction (`extractNumbers`, app.ts:74-98) -/

/-- Separator characters of the line-mode split regex `/[\r\n,;]+/`. -/
def isSepChar (c : Char) : Bool :=
  c = '\r' ∨ c = '\n' ∨ c = ',' ∨ c = ';'

/-- ASCII whitespace as matched by the JS `\s` class and by
`String.prototype.trim` (the Unicode-only space characters are not
modelled; no claim depends on them). -/
def isWSChar (c : Char) : Bool :=
  c = ' ' ∨ c = '\t' ∨ c = '\n' ∨ c = '\r' ∨ c = '\x0b' ∨ c = '\x0c'

/-- `String.prototype.trim`: drop whitespace from both ends. -/
def trimChars (cs : List Char) : List Char :=
  ((cs.dropWhile isWSChar).reverse.dropWhile isWSChar).reverse

/-- The fragments of `text.split(/[\r\n,;]+/)`: maximal runs of
non-separator characters.  The JS split also yields empty fragments at
the ends, but the loop's `if (!trimmed) continue` discards those, so we
filter them here. -/
def splitFrags (cs : List Char) : List (List Char) :=
  (cs.foldr
    (fun c acc =>
      if isSepChar c then [] :: acc
      else
        match acc with
        | [] => [[c]]
        | f :: fs => (c :: f) :: fs)
    [[]]).filter (· ≠ [])

/-- The shared accumulation loop of `extractNumbers`: normalize each
candidate, skip the invalid ones, and deduplicate against the `seen`
set while preserving first-seen order. -/
def collectValid (seen : List String) : List String → List String
  | [] => []
  | c :: cs =>
    match normalizePeruNumber c with
    | some n =>
      if n ∈ seen then collectValid seen cs
      else n :: collectValid (n :: seen) cs
    | none => collectValid seen cs

/-- The character class `[\d\s\-().]` of the pattern-scan regex. -/
def isClassChar (c : Char) : Bool :=
  c.isDigit ∨ isWSChar c ∨ c = '-' ∨ c = '(' ∨ c = ')' ∨ c = '.'

/-- Match the optional country-code group `(?:\+?\s*51\s*)?` (nonempty
form) at the head of `cs`, returning the consumed characters and the
rest.  `\s*` before a literal never backtracks (the literals `5` and `9`
are not whitespace), and if the branch that consumed `+` fails, the
branch without `+` fails too (`+` is not `5`), so the match is
deterministic. -/
def matchCC (cs : List Char) : Option (List Char × List Char) :=
  let core (pre : List Char) (ds : List Char) :
      Option (List Char × List Char) :=
    let ws1 := ds.takeWhile isWSChar
    match ds.dropWhile isWSChar with
    | '5' :: '1' :: rest =>
      let ws2 := rest.takeWhile isWSChar
      some (pre ++ ws1 ++ ['5', '1'] ++ ws2, rest.dropWhile isWSChar)
    | _ => none
  match cs with
  | '+' :: rest => core ['+'] rest
  | _ => core [] cs

/-- One attempt of the regex `(?:\+?\s*51\s*)?9[\d\s\-().]{8,20}` at a
fixed position: after the (possibly empty) country-code group, require a
literal `9` and then greedily 8 to 20 characters of the class.  Returns
the matched text; the regex consumes exactly the match. -/
def matchBody (pre : List Char) (cs : List Char) : Option (List Char) :=
  match cs with
  | '9' :: rest =>
    let taken := (rest.takeWhile isClassChar).take 20
    if 8 ≤ taken.length then some (pre ++ '9' :: taken) else none
  | _ => none

/-- Full match attempt at a fixed position: try with the country-code
group first; if the rest fails, the engine backtracks the optional group
to empty and retries at the same position. -/
def matchAt (cs : List Char) : Option (List Char) :=
  match matchCC cs with
  | some (pre, rest) =>
    match matchBody pre rest with
    | some m => some m
    | none => matchBody [] cs
  | none => matchBody [] cs

theorem matchBody_length_pos {pre cs : List Char} {m : List Char}
    (h : matchBody pre cs = some m) : 0 < m.length := by
  unfold matchBody at h
  split at h
  · simp only at h
    split at h
    · cases h; simp
    · exact absurd h (by simp)
  · exact absurd h (by simp)

theorem matchAt_length_pos {cs : List Char} {m : List Char}
    (h : matchAt cs = some m) : 0 < m.length := by
  unfold matchAt at h
  split at h
  · split at h
    · cases h; exact matchBody_length_pos (by assumption)
    · exact matchBody_length_pos h
  · exact matchBody_length_pos h

/-- Global scan of `text.match(/.../g)`: successive non-overlapping
matches; after a match the scan resumes at its end, and a failed
position advances by one character. -/
def scanMatches : List Char → List (List Char)
  | [] => []
  | c :: cs =>
    match h : matchAt (c :: cs) with
    | some m => m :: scanMatches ((c :: cs).drop m.length)
    | none => scanMatches cs
termination_by l => l.length
decreasing_by
  · simp only [List.length_drop]
    have := matchAt_length_pos h
    simp only [List.length_cons]
    omega
  · simp

/-- Line/separator mode of `extractNumbers` (app.ts:77-86). -/
def extractLineMode (text : String) : List String :=
  collectValid []
    (((splitFrags text.toList).map (fun f => String.mk (trimChars f))).filter
      (· ≠ ""))

/-- Pattern-scan fallback of `extractNumbers` (app.ts:87-96).  In the
source the fallback reuses the `seen` set and `validNumbers` array, but
it only runs when both are empty, so starting fresh is equivalent. -/
def extractPatternMode (text : String) : List String :=
  collectValid [] ((scanMatches text.toList).map String.mk)

/-- `extractNumbers` (app.ts:74-98): line mode first, pattern-scan only
when line mode yields zero results. -/
def extractNumbers (text : String) : List String :=
  let lineMode := extractLineMode text
  if lineMode.isEmpty then extractPatternMode text else lineMode

/-! ## Session state (app.ts:28-60) -/

/-- The `step` field of `UserState` (app.ts:31). -/
inductive Step where
  | idle
  | waiting_numbers
  | confirming_numbers
  | waiting_messages
  | confirming_messages
deriving DecidableEq, Repr

/-- `UserState` (app.ts:30-34). -/
structure UserState where
  step : Step
  numbers : List String
  messages : List String
deriving DecidableEq, Repr

/-- The default record `{ step: "idle", numbers: [], messages: [] }`
installed by `getState` and `resetState` (app.ts:38-47). -/
def defaultState : UserState :=
  { step := .idle, numbers := [], messages := [] }

/-- The session map `userStates` as an association list; `mapSet`
mirrors `Map.prototype.set`: replace in place when the key is present,
append otherwise. -/
def mapSet (m : List (String × UserState)) (k : String) (v : UserState) :
    List (String × UserState) :=
  match m with
  | [] => [(k, v)]
  | (k', v') :: rest =>
    if k' = k then (k, v) :: rest else (k', v') :: mapSet rest k v

/-- `Map.prototype.get`/`has` on the session map. -/
def mapGet (m : List (String × UserState)) (k : String) : Option UserState :=
  match m with
  | [] => none
  | (k', v) :: rest => if k' = k then some v else mapGet rest k

/-- `getState` (app.ts:38-43): insert the default record when the key is
absent, then return the record together with the (possibly grown) map. -/
def getStateM (m : List (String × UserState)) (k : String) :
    UserState × List (String × UserState) :=
  match mapGet m k with
  | some s => (s, m)
  | none => (defaultState, mapSet m k defaultState)

/-- The loop body of `addNumbersToState` (app.ts:52-58): `existing` is
the mutable seen-set, `nums` the `state.numbers` array being pushed to,
`added` the counter. -/
def addAux (existing : List String) (nums : List String) (added : Nat) :
    List String → List String × Nat
  | [] => (nums, added)
  | n :: ns =>
    if n ∈ existing then addAux existing nums added ns
    else addAux (n :: existing) (nums ++ [n]) (added + 1) ns

/-- `addNumbersToState` (app.ts:49-60): merge `newNumbers` into
`numbers`, appending each identifier not already present (deduplicating
within `newNumbers` too); returns the new list and the added-count. -/
def addNumbersToState (numbers newNumbers : List String) :
    List String × Nat :=
  addAux numbers numbers 0 newNumbers

/-- `[...new Set(xs)]`: deduplicate keeping the first occurrence, in
insertion order (app.ts:414). -/
def dedupFirst (seen : List String) : List String → List String
  | [] => []
  | x :: xs =>
    if x ∈ seen then dedupFirst seen xs
    else x :: dedupFirst (x :: seen) xs

/-! ## The dispatch loop (`sendBulkWhatsApp`, app.ts:126-180) -/

/-- Outcome of the optional existence check for one recipient
(app.ts:146-154).  `absent`: `provider.vendor.onWhatsApp` is not a
function; `throws`: the check itself threw (caught, fail open); `empty`:
the call returned but `result` or `result[0]` was falsy; `result b`:
`result[0].exists === true` evaluated to `b`. -/
inductive Check where
  | absent
  | throws
  | empty
  | result (exists_ : Bool)
deriving DecidableEq, Repr

/-- The value of `hasWhatsApp` after the inner try/catch: only a
definitive `exists: false` answer makes it `false`. -/
def hasWhatsApp : Check → Bool
  | .absent => true
  | .throws => true
  | .empty => true
  | .result b => b

/-- Oracle for the external transport: the outcome of the existence
check for the recipient at each loop index, and whether the
`sendMessage` call for (recipient index, payload index) succeeds
(`false` = the call throws). -/
structure Transport where
  check : Nat → Check
  sendOk : Nat → Nat → Bool

/-- Index of the first payload whose `sendMessage` call throws for
recipient `i`, if any: the inner payload loop (app.ts:162-169) runs the
payloads in order and an exception aborts the remaining ones. -/
def firstFail (t : Transport) (i : Nat) (nmsgs : Nat) : Option Nat :=
  (List.range nmsgs).find? (fun j => ¬ t.sendOk i j)

/-- Aggregate outcome of one `sendBulkWhatsApp` run, together with the
observable call traces: `progress` records the `onProgress(sent, total)`
invocations in order, `attempts` the `sendMessage` calls as
(recipient index, payload index) pairs in order. -/
structure SendOutcome where
  success : Nat
  failed : Nat
  notOnWhatsApp : Nat
  progress : List (Nat × Nat)
  attempts : List (Nat × Nat)
deriving DecidableEq, Repr

/-- The payload indices actually attempted for reachable recipient `i`:
all of them when every call delivers, and `0..j` when the call at `j`
throws (the call that throws is itself an attempt). -/
def attemptsFor (t : Transport) (i : Nat) (nmsgs : Nat) : List Nat :=
  match firstFail t i nmsgs with
  | some j => List.range (j + 1)
  | none => List.range nmsgs

/-- The recipient loop of `sendBulkWhatsApp` (app.ts:136-178), processing
`remaining` recipients starting at index `i` out of `total`.  An
unreachable recipient increments `notOnWhatsApp` and `continue`s — which
skips the `onProgress` call at app.ts:177; a thrown `sendMessage` lands
in the catch (app.ts:172-175) incrementing `failed`; otherwise `success`
is incremented; the latter two fall through to `onProgress`.  The
randomized delays (app.ts:140-143, 165-168) have no observable effect
here and are not modelled. -/
def bulkGo (t : Transport) (total nmsgs : Nat) : Nat → Nat → SendOutcome
  | _, 0 => ⟨0, 0, 0, [], []⟩
  | i, r + 1 =>
    let rest := bulkGo t total nmsgs (i + 1) r
    if hasWhatsApp (t.check i) = false then
      { rest with notOnWhatsApp := rest.notOnWhatsApp + 1 }
    else
      match firstFail t i nmsgs with
      | some _ =>
        { rest with
          failed := rest.failed + 1
          progress := (i + 1, total) :: rest.progress
          attempts := (attemptsFor t i nmsgs).map (fun k => (i, k))
            ++ rest.attempts }
      | none =>
        { rest with
          success := rest.success + 1
          progress := (i + 1, total) :: rest.progress
          attempts := (attemptsFor t i nmsgs).map (fun k => (i, k))
            ++ rest.attempts }

/-- `sendBulkWhatsApp` (app.ts:126-180).  The recipient strings only
reach the transport (as `jid`) and the log; the oracle is keyed by loop
index, which records the same sequence of external outcomes. -/
def sendBulkWhatsApp (t : Transport) (numbers messages : List String) :
    SendOutcome :=
  bulkGo t numbers.length messages.length 0 numbers.length

/-! ## The conversation flows (app.ts:213-219, 319-458) -/

/-- `ctx.body.trim()`. -/
def jsTrim (s : String) : String :=
  String.mk (trimChars s.toList)

/-- `.toLowerCase()` (ASCII; the control keywords are ASCII). -/
def jsLower (s : String) : String :=
  String.mk (s.toList.map Char.toLower)

/-- One tag per `flowDynamic` call site reachable from `cancelFlow` and
`catchAllFlow`; the message texts themselves carry no claim-relevant
information beyond the dynamic counts, which are kept as arguments. -/
inductive Reply where
  /-- "*Operacion cancelada.* ..." (app.ts:218, 328). -/
  | cancelled
  /-- "*Acceso concedido!* ..." (app.ts:335-342). -/
  | accessGranted
  /-- "No tienes numeros en la lista todavia. ..." (app.ts:350). -/
  | noNumbersYet
  /-- "*Lista confirmada!* ..." (app.ts:355-364). -/
  | listConfirmed (total : Nat)
  /-- "No encontre numeros validos. Escribe *Confirmar* ..." (app.ts:371). -/
  | noValidConfirming
  /-- "No encontre numeros validos. Formatos: ..." (app.ts:372). -/
  | noValidWaiting
  /-- "*Perfecto!* Se agregaron ..." (app.ts:383-394). -/
  | numbersAdded (added total : Nat)
  /-- "No tienes mensajes guardados todavia. ..." (app.ts:401). -/
  | noMessagesYet
  /-- "*Iniciando envio!* ..." (app.ts:405-412). -/
  | dispatchStarting (recipients payloads : Nat)
  /-- "*Envio completado!* ..." (app.ts:420-429). -/
  | dispatchSummary (success failed notOnWhatsApp : Nat)
  /-- "*Mensaje N guardado!* ..." (app.ts:436-445). -/
  | messageSaved (count : Nat)
  /-- "*Sesion activa* ..." (app.ts:450-456). -/
  | sessionActive
deriving DecidableEq, Repr

/-- The observable effect of one inbound event on the process state:
the session map, the authorized set (`authenticatedUsers`), the
`flowDynamic` replies in order, and the `sendBulkWhatsApp` invocations
with their snapshot arguments. -/
structure FlowOut where
  states : List (String × UserState)
  auth : List String
  replies : List Reply
  dispatched : List (List String × List String)
deriving DecidableEq, Repr

/-- `Set.prototype.add` on the authorized set. -/
def authAdd (from_ : String) (auth : List String) : List String :=
  if from_ ∈ auth then auth else from_ :: auth

/-- `cancelFlow` (app.ts:213-219): exact-keyword cancellation.  An
unauthorized sender returns before touching any state (no `getState`
call); an authorized one has the session reset, is removed from the
authorized set, and gets the cancellation notice. -/
def cancelFlow (m : List (String × UserState)) (auth : List String)
    (from_ : String) : FlowOut :=
  if from_ ∈ auth then
    ⟨mapSet m from_ defaultState, auth.erase from_, [.cancelled], []⟩
  else ⟨m, auth, [], []⟩

/-- `catchAllFlow` (app.ts:319-458), the state machine for every text
event not captured by a keyword flow, parameterized by the configured
secret and the transport oracle used by a triggered dispatch.  `getState`
runs first, unconditionally (app.ts:321). -/
def catchAllFlow (secret : String) (t : Transport)
    (m : List (String × UserState)) (auth : List String)
    (from_ body : String) : FlowOut :=
  let sm := getStateM m from_
  let state := sm.1
  let m := sm.2
  let userMessage := jsTrim body
  if jsLower userMessage ∈ ["cancel", "cancelar"] then
    if from_ ∈ auth then
      ⟨mapSet m from_ defaultState, auth.erase from_, [.cancelled], []⟩
    else ⟨m, auth, [], []⟩
  else if from_ ∉ auth then
    if userMessage = secret then ⟨m, authAdd from_ auth, [.accessGranted], []⟩
    else ⟨m, auth, [], []⟩
  else if state.step = .waiting_numbers ∨ state.step = .confirming_numbers then
    if jsLower userMessage ∈ ["confirmar", "confirm", "ok", "listo"] then
      if state.numbers = [] then ⟨m, auth, [.noNumbersYet], []⟩
      else
        ⟨mapSet m from_ { state with step := .waiting_messages, messages := [] },
          auth, [.listConfirmed state.numbers.length], []⟩
    else
      let extracted := extractNumbers userMessage
      if extracted = [] then
        if state.step = .confirming_numbers then
          ⟨m, auth, [.noValidConfirming], []⟩
        else ⟨m, auth, [.noValidWaiting], []⟩
      else
        let an := addNumbersToState state.numbers extracted
        ⟨mapSet m from_ { state with step := .confirming_numbers, numbers := an.1 },
          auth, [.numbersAdded an.2 an.1.length], []⟩
  else if state.step = .waiting_messages ∨ state.step = .confirming_messages then
    if userMessage = "Enviar" then
      if state.messages = [] then ⟨m, auth, [.noMessagesYet], []⟩
      else
        let nums := dedupFirst [] state.numbers
        let msgs := state.messages
        let m := mapSet m from_ defaultState
        let result := sendBulkWhatsApp t nums msgs
        ⟨m, auth,
          [.dispatchStarting state.numbers.length state.messages.length,
           .dispatchSummary result.success result.failed result.notOnWhatsApp],
          [(nums, msgs)]⟩
    else
      ⟨mapSet m from_
          { state with
              step := .confirming_messages
              messages := state.messages ++ [userMessage] },
        auth, [.messageSaved (state.messages.length + 1)], []⟩
  else
    ⟨m, auth, [.sessionActive], []⟩

/-! ## Structural lemmas -/

theorem bulkGo_sum (t : Transport) (total nmsgs : Nat) :
    ∀ (r i : Nat),
      (bulkGo t total nmsgs i r).success + (bulkGo t total nmsgs i r).failed
        + (bulkGo t total nmsgs i r).notOnWhatsApp = r := by
  intro r
  induction r with
  | zero => intro i; rfl
  | succ r ih =>
    intro i
    have h := ih (i + 1)
    simp only [bulkGo]
    split
    · simpa using by omega
    · split <;> simpa using by omega

theorem bulkGo_spec (t : Transport) (total nmsgs : Nat) :
    ∀ (r i : Nat),
      bulkGo t total nmsgs i r =
        { success := ((List.range' i r).filter fun k =>
              hasWhatsApp (t.check k) && (firstFail t k nmsgs).isNone).length
          failed := ((List.range' i r).filter fun k =>
              hasWhatsApp (t.check k) && (firstFail t k nmsgs).isSome).length
          notOnWhatsApp := ((List.range' i r).filter fun k =>
              !hasWhatsApp (t.check k)).length
          progress := ((List.range' i r).filter fun k =>
              hasWhatsApp (t.check k)).map fun k => (k + 1, total)
          attempts := (List.range' i r).flatMap fun k =>
            if hasWhatsApp (t.check k) then
              (attemptsFor t k nmsgs).map fun j => (k, j)
            else [] } := by
  intro r
  induction r with
  | zero => intro i; rfl
  | succ r ih =>
    intro i
    have h := ih (i + 1)
    simp only [bulkGo, h, List.range'_succ, List.filter_cons, List.flatMap_cons]
    rcases hw : hasWhatsApp (t.check i) with _ | _
    · simp [hw]
    · rcases hf : firstFail t i nmsgs with _ | j <;> simp [hw, hf]

theorem sendBulk_spec (t : Transport) (numbers messages : List String) :
    sendBulkWhatsApp t numbers messages =
      { success := ((List.range numbers.length).filter fun k =>
            hasWhatsApp (t.check k) && (firstFail t k messages.length).isNone).length
        failed := ((List.range numbers.length).filter fun k =>
            hasWhatsApp (t.check k) && (firstFail t k messages.length).isSome).length
        notOnWhatsApp := ((List.range numbers.length).filter fun k =>
            !hasWhatsApp (t.check k)).length
        progress := ((List.range numbers.length).filter fun k =>
            hasWhatsApp (t.check k)).map fun k => (k + 1, numbers.length)
        attempts := (List.range numbers.length).flatMap fun k =>
          if hasWhatsApp (t.check k) then
            (attemptsFor t k messages.length).map fun j => (k, j)
          else [] } := by
  rw [sendBulkWhatsApp, bulkGo_spec, List.range_eq_range']

theorem normalize_shape {s r : String} (h : normalizePeruNumber s = some r) :
    r.toList.length = 11 ∧ r.toList.take 2 = ['5', '1'] ∧
      r.toList.get? 2 = some '9' := by
  simp only [normalizePeruNumber] at h
  generalize digitsOf s = cleaned at h
  split at h
  · exact absurd h (by simp)
  · split at h
    · rename_i hd
      cases h
      rcases cleaned with _ | ⟨c, cs⟩
      · simp at hd
      · simp only [List.head?_cons, Option.some.injEq, List.length_cons] at hd
        obtain ⟨hc, hlen⟩ := hd
        subst hc
        refine ⟨?_, rfl, rfl⟩
        show ('5' :: '1' :: '9' :: cs).length = 11
        simp only [List.length_cons]
        omega
    · split at h
      · rename_i hd
        cases h
        exact ⟨hd.2.1, hd.1, hd.2.2⟩
      · exact absurd h (by simp)

theorem collectValid_mem {seen cs : List String} {r : String}
    (h : r ∈ collectValid seen cs) :
    ∃ c ∈ cs, normalizePeruNumber c = some r := by
  induction cs generalizing seen with
  | nil => simp [collectValid] at h
  | cons c cs ih =>
    simp only [collectValid] at h
    split at h
    · rename_i n hn
      split at h
      · obtain ⟨c', hc', hn'⟩ := ih h
        exact ⟨c', List.mem_cons_of_mem _ hc', hn'⟩
      · rcases List.mem_cons.mp h with h' | h'
        · exact ⟨c, List.mem_cons_self _ _, h' ▸ hn⟩
        · obtain ⟨c', hc', hn'⟩ := ih h'
          exact ⟨c', List.mem_cons_of_mem _ hc', hn'⟩
    · obtain ⟨c', hc', hn'⟩ := ih h
      exact ⟨c', List.mem_cons_of_mem _ hc', hn'⟩

theorem collectValid_not_mem_seen {seen cs : List String} {r : String}
    (h : r ∈ collectValid seen cs) : r ∉ seen := by
  induction cs generalizing seen with
  | nil => simp [collectValid] at h
  | cons c cs ih =>
    simp only [collectValid] at h
    split at h
    · rename_i n hn
      split at h
      · exact ih h
      · rcases List.mem_cons.mp h with h' | h'
        · subst h'; assumption
        · intro hr
          exact ih h' (List.mem_cons_of_mem _ hr)
    · exact ih h

theorem collectValid_nodup (seen cs : List String) :
    (collectValid seen cs).Nodup := by
  induction cs generalizing seen with
  | nil => simp [collectValid]
  | cons c cs ih =>
    simp only [collectValid]
    split
    · rename_i n hn
      split
      · exact ih seen
      · refine List.nodup_cons.mpr ⟨?_, ih (n :: seen)⟩
        intro hmem
        exact collectValid_not_mem_seen hmem (List.mem_cons_self _ _)
    · exact ih seen

theorem collectValid_sublist (seen cs : List String) :
    List.Sublist (collectValid seen cs) (cs.filterMap normalizePeruNumber) := by
  induction cs generalizing seen with
  | nil => simp [collectValid]
  | cons c cs ih =>
    simp only [collectValid, List.filterMap_cons]
    split
    · rename_i n hn
      rw [hn]
      split
      · exact (ih seen).cons n
      · exact (ih (n :: seen)).cons₂ n
    · rename_i hn
      rw [hn]
      exact ih seen

theorem addAux_spec :
    ∀ (ns existing nums : List String) (added : Nat),
      ∃ extra,
        addAux existing nums added ns = (nums ++ extra, added + extra.length)
          ∧ extra.Nodup ∧ ∀ x ∈ extra, x ∉ existing ∧ x ∈ ns := by
  intro ns
  induction ns with
  | nil =>
    exact fun existing nums added => ⟨[], by simp [addAux], by simp, by simp⟩
  | cons n ns ih =>
    intro existing nums added
    by_cases hn : n ∈ existing
    · obtain ⟨extra, heq, hnd, hmem⟩ := ih existing nums added
      refine ⟨extra, ?_, hnd, fun x hx => ?_⟩
      · simpa [addAux, hn] using heq
      · exact ⟨(hmem x hx).1, List.mem_cons_of_mem _ (hmem x hx).2⟩
    · obtain ⟨extra, heq, hnd, hmem⟩ := ih (n :: existing) (nums ++ [n]) (added + 1)
      refine ⟨n :: extra, ?_, ?_, ?_⟩
      · rw [show addAux existing nums added (n :: ns)
              = addAux (n :: existing) (nums ++ [n]) (added + 1) ns from by
            simp [addAux, hn]]
        rw [heq]
        simp only [Prod.mk.injEq, List.append_assoc, List.singleton_append,
          List.length_cons]
        exact ⟨trivial, by omega⟩
      · refine List.nodup_cons.mpr ⟨fun hmem' => ?_, hnd⟩
        exact (hmem n hmem').1 (List.mem_cons_self _ _)
      · intro x hx
        rcases List.mem_cons.mp hx with h' | h'
        · subst h'; exact ⟨hn, List.mem_cons_self _ _⟩
        · refine ⟨fun hx' => (hmem x h').1 (List.mem_cons_of_mem _ hx'), ?_⟩
          exact List.mem_cons_of_mem _ (hmem x h').2

theorem mapGet_mapSet_self (m : List (String × UserState)) (k : String)
    (v : UserState) : mapGet (mapSet m k v) k = some v := by
  induction m with
  | nil => simp [mapSet, mapGet]
  | cons p m ih =>
    obtain ⟨k', v'⟩ := p
    by_cases h : k' = k
    · simp [mapSet, h, mapGet]
    · simp [mapSet, if_neg h, mapGet, ih]

theorem length_mapSet_of_mapGet_none {m : List (String × UserState)}
    {k : String} (v : UserState) (h : mapGet m k = none) :
    (mapSet m k v).length = m.length + 1 := by
  induction m with
  | nil => simp [mapSet]
  | cons p m ih =>
    obtain ⟨k', v'⟩ := p
    simp only [mapGet] at h
    by_cases hk : k' = k
    · rw [if_pos hk] at h
      exact absurd h (by simp)
    · rw [if_neg hk] at h
      simp [mapSet, if_neg hk, ih h]

theorem mapSet_mapSet (m : List (String × UserState)) (k : String)
    (v w : UserState) : mapSet (mapSet m k v) k w = mapSet m k w := by
  induction m with
  | nil => simp [mapSet]
  | cons p m ih =>
    obtain ⟨k', v'⟩ := p
    by_cases h : k' = k
    · simp [mapSet, h]
    · simp [mapSet, if_neg h, ih]

/-! ## Claim theorems -/

/-- C1: a completed `sendBulkWhatsApp` run increments exactly one of the
three counters per recipient, so for any recipient list of length K and
any payload list the returned result satisfies
`success + failed + notOnWhatsApp = K`; the loop is a total function of
the oracle, so no recipient's failure aborts it early. -/
theorem C1_counter_partition (t : Transport) (numbers messages : List String) :
    (sendBulkWhatsApp t numbers messages).success
      + (sendBulkWhatsApp t numbers messages).failed
      + (sendBulkWhatsApp t numbers messages).notOnWhatsApp
      = numbers.length :=
  bulkGo_sum t numbers.length messages.length numbers.length 0

/-- C2, counterexample: with one recipient whose existence check returns
a definitive `exists: false`, the recipient is counted `notOnWhatsApp`
but the progress sink is never invoked — the `continue` at app.ts:159
skips the `onProgress` call at app.ts:177 — refuting "the sink is
invoked once after each recipient ... regardless of outcome". -/
theorem C2_counterexample :
    (sendBulkWhatsApp ⟨fun _ => Check.result false, fun _ _ => true⟩
        ["51987654321"] ["hola"]).notOnWhatsApp = 1
    ∧ (sendBulkWhatsApp ⟨fun _ => Check.result false, fun _ _ => true⟩
        ["51987654321"] ["hola"]).progress = []
    ∧ ¬ (sendBulkWhatsApp ⟨fun _ => Check.result false, fun _ _ => true⟩
          ["51987654321"] ["hola"]).progress.length
        = (["51987654321"] : List String).length := by
  refine ⟨rfl, rfl, by decide⟩

/-- C2, amended: the progress sink is invoked once after each recipient
whose outcome is success or failed, with arguments
(1-based recipient position, total recipient count), in order; a
recipient counted `notOnWhatsApp` (unreachable) produces no invocation. -/
theorem C2_progress_characterization (t : Transport)
    (numbers messages : List String) :
    (sendBulkWhatsApp t numbers messages).progress =
      ((List.range numbers.length).filter fun i => hasWhatsApp (t.check i)).map
        fun i => (i + 1, numbers.length) := by
  rw [sendBulk_spec]

/-- C5: payloads are attempted in order for each reachable recipient —
all of them when every call delivers (the recipient counts as success),
and exactly payloads `0..j` when the call at `j` throws (the remaining
payloads are skipped, the recipient counts as failed exactly once, and
later recipients are still processed).  Concretely, dispatching to 3
recipients where recipient 2's transport call throws on the first
payload yields `{success := 2, failed := 1, notOnWhatsApp := 0}` with
recipient 2 attempted only once. -/
theorem C5_payload_abort_isolated :
    (∀ (t : Transport) (numbers messages : List String),
      (sendBulkWhatsApp t numbers messages).attempts =
        ((List.range numbers.length).flatMap fun i =>
          if hasWhatsApp (t.check i) then
            (attemptsFor t i messages.length).map fun j => (i, j)
          else [])
      ∧ (sendBulkWhatsApp t numbers messages).failed =
          ((List.range numbers.length).filter fun i =>
            hasWhatsApp (t.check i) && (firstFail t i messages.length).isSome).length
      ∧ (sendBulkWhatsApp t numbers messages).success =
          ((List.range numbers.length).filter fun i =>
            hasWhatsApp (t.check i) && (firstFail t i messages.length).isNone).length)
    ∧ sendBulkWhatsApp ⟨fun _ => Check.absent, fun i _ => i != 1⟩
        ["51911111111", "51922222222", "51933333333"] ["m1", "m2"]
        = ⟨2, 1, 0, [(1, 3), (2, 3), (3, 3)],
            [(0, 0), (0, 1), (1, 0), (2, 0), (2, 1)]⟩ := by
  constructor
  · intro t numbers messages
    rw [sendBulk_spec]
    exact ⟨rfl, rfl, rfl⟩
  · decide

/-- C6: when the optional existence check is absent or throws (or yields
no usable result), the recipient is treated as reachable and delivery is
attempted; only a definitive not-reachable answer makes the recipient
count as `notOnWhatsApp`, with no `sendMessage` call for it at all. -/
theorem C6_fail_open (t : Transport) (numbers messages : List String) :
    ((sendBulkWhatsApp t numbers messages).notOnWhatsApp =
        ((List.range numbers.length).filter fun i =>
          !hasWhatsApp (t.check i)).length)
    ∧ ∀ i, i < numbers.length →
        ((t.check i = Check.absent ∨ t.check i = Check.throws
            ∨ t.check i = Check.empty) → messages ≠ [] →
          (i, 0) ∈ (sendBulkWhatsApp t numbers messages).attempts)
        ∧ (t.check i = Check.result false →
            ∀ j, (i, j) ∉ (sendBulkWhatsApp t numbers messages).attempts) := by
  rw [sendBulk_spec]
  refine ⟨rfl, fun i hi => ⟨?_, ?_⟩⟩
  · intro hc hm
    have hr : hasWhatsApp (t.check i) = true := by
      rcases hc with h | h | h <;> simp [h, hasWhatsApp]
    apply List.mem_flatMap.mpr
    refine ⟨i, List.mem_range.mpr hi, ?_⟩
    rw [if_pos hr]
    apply List.mem_map.mpr
    refine ⟨0, ?_, rfl⟩
    have hml : messages.length ≠ 0 := fun h0 => hm (List.length_eq_zero.mp h0)
    unfold attemptsFor
    rcases firstFail t i messages.length with _ | j
    · exact List.mem_range.mpr (by omega)
    · exact List.mem_range.mpr (by omega)
  · intro hc j hj
    have hr : hasWhatsApp (t.check i) = false := by simp [hc, hasWhatsApp]
    obtain ⟨k, hk, hmem⟩ := List.mem_flatMap.mp hj
    by_cases hki : k = i
    · subst hki
      rw [if_neg (by simp [hr])] at hmem
      simp at hmem
    · split at hmem
      · obtain ⟨j', hj', he⟩ := List.mem_map.mp hmem
        cases he
        exact hki rfl
      · simp at hmem

/-- C6 witness: with the check throwing, the single recipient's first
payload is attempted; with a definitive negative check, it is not. -/
theorem C6_witness :
    (0, 0) ∈ (sendBulkWhatsApp ⟨fun _ => Check.throws, fun _ _ => true⟩
        ["51987654321"] ["hola"]).attempts
    ∧ (0, 0) ∉ (sendBulkWhatsApp ⟨fun _ => Check.result false, fun _ _ => true⟩
        ["51987654321"] ["hola"]).attempts := by
  constructor
  · exact ((C6_fail_open ⟨fun _ => Check.throws, fun _ _ => true⟩
        ["51987654321"] ["hola"]).2 0 (by decide)).1
      (Or.inr (Or.inl rfl)) (by decide)
  · exact ((C6_fail_open ⟨fun _ => Check.result false, fun _ _ => true⟩
        ["51987654321"] ["hola"]).2 0 (by decide)).2 rfl 0

/-- C3: `normalizePeruNumber` is a total function (every Lean `def` is)
that prefixes the country code `"51"` to a 9-digit cleaned input
starting with `9`, returns an 11-digit cleaned input starting `"51"`
with third digit `9` unchanged, and rejects every other shape;
`"987654321" ↦ "51987654321"`, `"51987654321" ↦ itself`,
`"123456789" ↦ none`. -/
theorem C3_normalize_characterization :
    (∀ s : String,
      (((digitsOf s).length = 9 ∧ (digitsOf s).head? = some '9') →
        normalizePeruNumber s = some (String.mk ('5' :: '1' :: digitsOf s)))
      ∧ (((digitsOf s).length = 11 ∧ (digitsOf s).take 2 = ['5', '1']
            ∧ (digitsOf s).get? 2 = some '9') →
        normalizePeruNumber s = some (String.mk (digitsOf s)))
      ∧ (¬ ((digitsOf s).length = 9 ∧ (digitsOf s).head? = some '9') →
          ¬ ((digitsOf s).length = 11 ∧ (digitsOf s).take 2 = ['5', '1']
            ∧ (digitsOf s).get? 2 = some '9') →
          normalizePeruNumber s = none))
    ∧ normalizePeruNumber "987654321" = some "51987654321"
    ∧ normalizePeruNumber "51987654321" = some "51987654321"
    ∧ normalizePeruNumber "123456789" = none := by
  refine ⟨fun s => ?_, by decide, by decide, by decide⟩
  simp only [normalizePeruNumber]
  generalize digitsOf s = cl
  refine ⟨fun ⟨h9, hh⟩ => ?_, fun ⟨h11, ht, hg⟩ => ?_, fun hn9 hn11 => ?_⟩
  · rw [if_neg ?_, if_pos ⟨hh, h9⟩]
    rcases cl with _ | ⟨c, cs⟩
    · simp at h9
    · simp
  · rw [if_neg ?_, if_neg ?_, if_pos ⟨ht, h11, hg⟩]
    · exact fun hc => by omega
    · rcases cl with _ | ⟨c, cs⟩
      · simp at h11
      · simp
  · by_cases he : cl.isEmpty = true
    · rw [if_pos he]
    · rw [if_neg he, if_neg fun hc => hn9 ⟨hc.2, hc.1⟩,
        if_neg fun hc => hn11 ⟨hc.2.1, hc.1, hc.2.2⟩]

/-- C3 witness: the 9-digit branch applied at `"987654321"`. -/
theorem C3_witness :
    normalizePeruNumber "987654321"
      = some (String.mk ('5' :: '1' :: digitsOf "987654321")) :=
  (C3_normalize_characterization.1 "987654321").1 ⟨by decide, by decide⟩

/-- C4: `extractNumbers` returns canonical identifiers (11 digits,
`"51"` prefix, third digit `9`) with no duplicates; line/separator mode
runs first and its output preserves first-seen order (it is a sublist of
the normalized candidate sequence); the pattern scan runs only when line
mode yields zero results; and the scenario text extracts to the three
identifiers in order, even when inputs repeat. -/
theorem C4_extract_nodup_order :
    (∀ text : String,
      (extractNumbers text).Nodup
      ∧ (∀ r ∈ extractNumbers text,
          r.toList.length = 11 ∧ r.toList.take 2 = ['5', '1']
            ∧ r.toList.get? 2 = some '9')
      ∧ (extractLineMode text ≠ [] → extractNumbers text = extractLineMode text)
      ∧ (extractLineMode text = [] →
          extractNumbers text = extractPatternMode text)
      ∧ List.Sublist (extractLineMode text)
          ((((splitFrags text.toList).map fun f => String.mk (trimChars f)).filter
            (· ≠ "")).filterMap normalizePeruNumber))
    ∧ extractNumbers "987654321, 912345678\n51999999999"
        = ["51987654321", "51912345678", "51999999999"]
    ∧ extractNumbers "987654321, 912345678\n51999999999, 987654321, 912345678"
        = ["51987654321", "51912345678", "51999999999"] := by
  refine ⟨fun text => ⟨?_, ?_, ?_, ?_, ?_⟩, by decide, by decide⟩
  · simp only [extractNumbers, extractLineMode, extractPatternMode]
    split
    · exact collectValid_nodup _ _
    · exact collectValid_nodup _ _
  · intro r hr
    simp only [extractNumbers, extractLineMode, extractPatternMode] at hr
    split at hr
    · obtain ⟨c, _, hc⟩ := collectValid_mem hr
      exact normalize_shape hc
    · obtain ⟨c, _, hc⟩ := collectValid_mem hr
      exact normalize_shape hc
  · intro hne
    simp only [extractNumbers]
    rw [if_neg (by simpa using hne)]
  · intro heq
    simp only [extractNumbers]
    rw [if_pos (by simpa using heq)]
  · simp only [extractLineMode]
    exact collectValid_sublist _ _

/-- C4 witness: a text whose line mode is nonempty is returned in line
mode. -/
theorem C4_witness :
    extractNumbers "987654321" = extractLineMode "987654321" :=
  ((C4_extract_nodup_order.1 "987654321").2.2.1) (by decide)

/-- C9: merging identifiers already present in `state.numbers` returns
added-count 0 and leaves the list unchanged (order included); in
general the existing list is preserved as a prefix and each genuinely
new identifier is appended at most once, in first-seen order, with the
added-count equal to the number of appended entries. -/
theorem C9_merge_idempotent (numbers newNumbers : List String) :
    ((∀ n ∈ newNumbers, n ∈ numbers) →
      addNumbersToState numbers newNumbers = (numbers, 0))
    ∧ (addNumbersToState numbers newNumbers).1.take numbers.length = numbers
    ∧ ((addNumbersToState numbers newNumbers).1.drop numbers.length).Nodup
    ∧ (∀ n ∈ (addNumbersToState numbers newNumbers).1.drop numbers.length,
        n ∉ numbers ∧ n ∈ newNumbers)
    ∧ (addNumbersToState numbers newNumbers).2
        = ((addNumbersToState numbers newNumbers).1.drop numbers.length).length := by
  obtain ⟨extra, heq, hnd, hmem⟩ := addAux_spec newNumbers numbers numbers 0
  have hup : addNumbersToState numbers newNumbers
      = (numbers ++ extra, 0 + extra.length) := heq
  rw [hup]
  refine ⟨fun hall => ?_, ?_, ?_, ?_, ?_⟩
  · rcases extra with _ | ⟨x, xs⟩
    · simp
    · exact absurd (hall x (hmem x (List.mem_cons_self _ _)).2)
        (hmem x (List.mem_cons_self _ _)).1
  · exact List.take_left numbers extra
  · rw [List.drop_left]
    exact hnd
  · rw [List.drop_left]
    exact fun n hn => hmem n hn
  · rw [List.drop_left]
    omega

/-- C9 witness: re-merging the sole existing identifier adds nothing. -/
theorem C9_witness :
    addNumbersToState ["51987654321"] ["51987654321"] = (["51987654321"], 0) :=
  (C9_merge_idempotent ["51987654321"] ["51987654321"]).1 (by decide)

/-- C7: for an authorized session in `waiting_messages` or
`confirming_messages` with an empty messages list, the exact send
trigger `"Enviar"` produces only the re-prompt: the session map is
untouched (step, numbers and messages unchanged), authorization is
unchanged, and the dispatch engine is not invoked. -/
theorem C7_send_trigger_empty_messages (secret : String) (t : Transport)
    (m : List (String × UserState)) (auth : List String) (from_ : String)
    (s : UserState) (hauth : from_ ∈ auth) (hlook : mapGet m from_ = some s)
    (hstep : s.step = Step.waiting_messages ∨ s.step = Step.confirming_messages)
    (hmsgs : s.messages = []) :
    catchAllFlow secret t m auth from_ "Enviar"
      = ⟨m, auth, [Reply.noMessagesYet], []⟩ := by
  simp only [catchAllFlow, getStateM, hlook]
  rw [show jsTrim "Enviar" = "Enviar" from by decide]
  rw [if_neg (by decide), if_neg (not_not_intro hauth),
    if_neg (fun h => by
      rcases hstep with h' | h' <;> rcases h with h'' | h'' <;>
        rw [h'] at h'' <;> exact Step.noConfusion h''),
    if_pos hstep, if_pos rfl, if_pos hmsgs]

/-- C7 witness: concrete authorized session in `waiting_messages` with
numbers queued but no messages. -/
theorem C7_witness :
    catchAllFlow "clave-whatsapp" ⟨fun _ => Check.absent, fun _ _ => true⟩
        [("u", ⟨Step.waiting_messages, ["51987654321"], []⟩)] ["u"] "u" "Enviar"
      = ⟨[("u", ⟨Step.waiting_messages, ["51987654321"], []⟩)], ["u"],
          [Reply.noMessagesYet], []⟩ :=
  C7_send_trigger_empty_messages "clave-whatsapp"
    ⟨fun _ => Check.absent, fun _ _ => true⟩
    [("u", ⟨Step.waiting_messages, ["51987654321"], []⟩)] ["u"] "u"
    ⟨Step.waiting_messages, ["51987654321"], []⟩
    (by decide) (by decide) (Or.inl rfl) rfl

/-- C8: a cancellation keyword from an unauthorized sender is a no-op —
`cancelFlow` returns before touching anything, and the `catchAllFlow`
cancel branch leaves an existing session record, the authorized set and
the reply stream unchanged; from an authorized sender it resets the
session to `{idle, [], []}`, removes the sender from the authorized set,
and emits the cancellation notice. -/
theorem C8_cancellation (secret : String) (t : Transport)
    (m : List (String × UserState)) (auth : List String)
    (from_ body : String) (s : UserState) :
    (from_ ∉ auth → cancelFlow m auth from_ = ⟨m, auth, [], []⟩)
    ∧ (from_ ∈ auth → auth.Nodup →
        cancelFlow m auth from_
          = ⟨mapSet m from_ defaultState, auth.erase from_,
              [Reply.cancelled], []⟩
        ∧ from_ ∉ auth.erase from_)
    ∧ (jsLower (jsTrim body) ∈ ["cancel", "cancelar"] →
        (from_ ∉ auth → mapGet m from_ = some s →
          catchAllFlow secret t m auth from_ body = ⟨m, auth, [], []⟩)
        ∧ (from_ ∈ auth →
            catchAllFlow secret t m auth from_ body
              = ⟨mapSet m from_ defaultState, auth.erase from_,
                  [Reply.cancelled], []⟩)) := by
  refine ⟨fun hne => ?_, fun hin hnd => ⟨?_, ?_⟩, fun hc => ⟨?_, ?_⟩⟩
  · rw [cancelFlow, if_neg hne]
  · rw [cancelFlow, if_pos hin]
  · intro hmem
    exact absurd ((List.Nodup.mem_erase_iff hnd).mp hmem).1 (by simp)
  · intro hne hlook
    simp only [catchAllFlow, getStateM, hlook]
    rw [if_pos hc, if_neg hne]
  · intro hin
    rcases hg : mapGet m from_ with _ | s'
    · simp only [catchAllFlow, getStateM, hg]
      rw [if_pos hc, if_pos hin, mapSet_mapSet]
    · simp only [catchAllFlow, getStateM, hg]
      rw [if_pos hc, if_pos hin]

/-- C8 witness: authorized cancellation at concrete inputs. -/
theorem C8_witness :
    (cancelFlow [] ["u"] "u"
        = ⟨mapSet [] "u" defaultState, (["u"] : List String).erase "u",
            [Reply.cancelled], []⟩
      ∧ "u" ∉ (["u"] : List String).erase "u")
    ∧ cancelFlow [] [] "u" = ⟨[], [], [], []⟩ := by
  constructor
  · exact (C8_cancellation "k" ⟨fun _ => Check.absent, fun _ _ => true⟩
      [] ["u"] "u" "cancel" defaultState).2.1 (by decide) (by decide)
  · exact (C8_cancellation "k" ⟨fun _ => Check.absent, fun _ _ => true⟩
      [] [] "u" "cancel" defaultState).1 (by decide)

/-- C10: every text event entering `catchAllFlow` calls `getState`
first, so a previously unseen sender key gets a default `{idle, [], []}`
record inserted and the session map grows by one entry — even on the
silent paths (unauthorized cancellation or arbitrary non-secret text)
that produce no reply and no other state change. -/
theorem C10_getState_inserts (secret : String) (t : Transport)
    (m : List (String × UserState)) (auth : List String)
    (from_ body : String) (hnew : mapGet m from_ = none) :
    (mapGet (catchAllFlow secret t m auth from_ body).states from_).isSome
    ∧ (catchAllFlow secret t m auth from_ body).states.length = m.length + 1
    ∧ (from_ ∉ auth →
        (catchAllFlow secret t m auth from_ body).states
          = mapSet m from_ defaultState)
    ∧ (from_ ∉ auth → jsTrim body ≠ secret →
        (catchAllFlow secret t m auth from_ body).replies = []) := by
  have hlen : ∀ v, (mapSet m from_ v).length = m.length + 1 :=
    fun v => length_mapSet_of_mapGet_none v hnew
  simp only [catchAllFlow, getStateM, hnew]
  by_cases hc : jsLower (jsTrim body) ∈ ["cancel", "cancelar"]
  · by_cases ha : from_ ∈ auth
    · rw [if_pos hc, if_pos ha]
      exact ⟨by simp [mapSet_mapSet, mapGet_mapSet_self],
        by simp [mapSet_mapSet, hlen], fun h => absurd ha h,
        fun h _ => absurd ha h⟩
    · rw [if_pos hc, if_neg ha]
      exact ⟨by simp [mapGet_mapSet_self], by simp [hlen],
        fun _ => rfl, fun _ _ => rfl⟩
  · rw [if_neg hc]
    by_cases ha : from_ ∈ auth
    · rw [if_neg (not_not_intro ha), if_neg (by decide), if_neg (by decide)]
      exact ⟨by simp [mapGet_mapSet_self], by simp [hlen],
        fun h => absurd ha h, fun h _ => absurd ha h⟩
    · rw [if_pos ha]
      by_cases hs : jsTrim body = secret
      · rw [if_pos hs]
        exact ⟨by simp [mapGet_mapSet_self], by simp [hlen],
          fun _ => rfl, fun _ hns => absurd hs hns⟩
      · rw [if_neg hs]
        exact ⟨by simp [mapGet_mapSet_self], by simp [hlen],
          fun _ => rfl, fun _ _ => rfl⟩

/-- C10 witness: an unseen unauthorized sender's plain text grows the
map by the default record and produces no reply. -/
theorem C10_witness :
    (mapGet (catchAllFlow "clave" ⟨fun _ => Check.absent, fun _ _ => true⟩
        [] [] "u" "hola").states "u").isSome
    ∧ (catchAllFlow "clave" ⟨fun _ => Check.absent, fun _ _ => true⟩
        [] [] "u" "hola").states = mapSet [] "u" defaultState
    ∧ (catchAllFlow "clave" ⟨fun _ => Check.absent, fun _ _ => true⟩
        [] [] "u" "hola").replies = [] := by
  have h := C10_getState_inserts "clave" ⟨fun _ => Check.absent, fun _ _ => true⟩
    [] [] "u" "hola" rfl
  exact ⟨h.1, h.2.2.1 (by decide), h.2.2.2 (by decide) (by decide)⟩

end BotSpec
